import Mathlib

/-!
Verification of the tiled vegetation-extraction engine
(`green_vegetation_extraction`): a shallow embedding of the pure logic of
`src/multithread_processing.py`, `src/classification/threshold_classification.py`,
`src/spectral_analysis/spectral_indices.py` and
`src/geometry_processing/object_extraction.py`, together with theorems about
the tiling, classification, filtering, coordinate translation and
result-aggregation behaviour.

Numeric conventions: Python integers are `Int`/`Nat`; floating-point values
(channel values promoted to float, ratios, centroids, perimeters) are embedded
as exact rationals `ℚ`, so the algebraic content of each formula is preserved.
External collaborators (rasterio I/O, GDAL, skimage labelling, dask workers,
the filesystem) are not re-implemented: each embedded function takes the
collaborator's output as an explicit argument, exactly at the interface the
Python code consumes it.
-/

namespace GreenVeg

/-! ### Python `range` semantics

`get_tiles_windows` iterates `range(0, h, tile_size)` / `range(0, w, tile_size)`.
CPython computes the length of `range(start, stop, step)` up front as
`max(0, ceil((stop-start)/step))` for `step > 0` (symmetrically for
`step < 0`) and raises `ValueError` for `step = 0`.  `Int./` is Euclidean
division, which agrees with Python floor division for positive divisors. -/

def rangeLen (start stop step : Int) : Nat :=
  if 0 < step then (((stop - start) + step - 1) / step).toNat
  else if step < 0 then (((start - stop) + (-step) - 1) / (-step)).toNat
  else 0

def pythonRange (start stop step : Int) : List Int :=
  (List.range (rangeLen start stop step)).map (fun (k : Nat) => start + step * (k : Int))

/-- Errors the embedded Python code can signal.  `invalidDimension` is the
spec's `InvalidDimension` error; it is included so that statements about it
can be written down (the code itself never raises it). -/
inductive PyErr where
  | valueError (msg : String)
  | keyError (key : String)
  | invalidDimension
deriving DecidableEq

/-- Embeds `rasterio.windows.Window(col_off, row_off, width, height)`. -/
structure RasterWindow where
  col_off : Int
  row_off : Int
  width : Int
  height : Int
deriving DecidableEq

/-- The window list built by the loop body of `get_tiles_windows`
(`multithread_processing.py` lines 75–80). -/
def tile_windows_list (h w tile_size : Int) : List RasterWindow :=
  (pythonRange 0 h tile_size).flatMap fun i =>
    (pythonRange 0 w tile_size).map fun j =>
      ⟨j, i, min tile_size (w - j), min tile_size (h - i)⟩

/-- Embeds `get_tiles_windows` (`multithread_processing.py` lines 69–80), with the
raster's height and width (read from the opened file) passed explicitly.
`range` with a zero step raises `ValueError`; there is no dimension
validation in the source. -/
def get_tiles_windows (h w tile_size : Int) : Except PyErr (List RasterWindow) :=
  if tile_size = 0 then .error (.valueError "range() arg 3 must not be zero")
  else .ok (tile_windows_list h w tile_size)

/-- Pixel `(r, c)` lies inside window `wdw`. -/
def windowContains (wdw : RasterWindow) (r c : Int) : Prop :=
  wdw.row_off ≤ r ∧ r < wdw.row_off + wdw.height ∧
  wdw.col_off ≤ c ∧ c < wdw.col_off + wdw.width

/-! #### Auxiliary facts about `pythonRange` with positive step -/

lemma mem_pythonRange_pos {stop step a : Int} (hstep : 0 < step) :
    a ∈ pythonRange 0 stop step ↔ 0 ≤ a ∧ a < stop ∧ step ∣ a := by
  unfold pythonRange rangeLen
  rw [if_pos hstep, List.mem_map]
  constructor
  · rintro ⟨k, hk, rfl⟩
    rw [List.mem_range, Int.lt_toNat, Int.lt_iff_add_one_le,
      Int.le_ediv_iff_mul_le hstep] at hk
    have hk0 : (0 : Int) ≤ step * k := mul_nonneg hstep.le (Int.natCast_nonneg k)
    exact ⟨by omega, by nlinarith, ⟨k, by ring⟩⟩
  · rintro ⟨ha, hlt, k, rfl⟩
    have hk0 : 0 ≤ k := by
      by_contra hneg
      push_neg at hneg
      nlinarith
    refine ⟨k.toNat, ?_, by rw [Int.toNat_of_nonneg hk0]; ring⟩
    rw [List.mem_range, Int.lt_toNat, Int.toNat_of_nonneg hk0,
      Int.lt_iff_add_one_le, Int.le_ediv_iff_mul_le hstep]
    nlinarith

lemma pythonRange_pos_empty {stop step : Int} (hstep : 0 < step) (hstop : stop ≤ 0) :
    pythonRange 0 stop step = [] := by
  unfold pythonRange rangeLen
  rw [if_pos hstep]
  have : (stop - 0 + step - 1) / step ≤ 0 := by
    have h1 : (stop - 0 + step - 1) / step < 1 := by
      rw [Int.ediv_lt_iff_lt_mul hstep]; omega
    omega
  rw [Int.toNat_of_nonpos this]
  simp

lemma pythonRange_neg_empty {stop step : Int} (hstep : step < 0) (hstop : 0 ≤ stop) :
    pythonRange 0 stop step = [] := by
  unfold pythonRange rangeLen
  rw [if_neg (by omega), if_pos hstep]
  have hpos : 0 < -step := by omega
  have : (0 - stop + -step - 1) / (-step) ≤ 0 := by
    have h1 : (0 - stop + -step - 1) / (-step) < 1 := by
      rw [Int.ediv_lt_iff_lt_mul hpos]; omega
    omega
  rw [Int.toNat_of_nonpos this]
  simp

/-- Two multiples of `step` whose length-`step` windows both contain `r`
coincide. -/
lemma step_block_unique {step i i' r : Int} (hstep : 0 < step)
    (hi : step ∣ i) (hi' : step ∣ i')
    (h1 : i ≤ r) (h2 : r < i + step) (h3 : i' ≤ r) (h4 : r < i' + step) :
    i = i' := by
  obtain ⟨k, rfl⟩ := hi
  obtain ⟨k', rfl⟩ := hi'
  rcases lt_trichotomy k k' with h | h | h
  · have : step * (k + 1) ≤ step * k' := by
      apply mul_le_mul_of_nonneg_left (by omega) (le_of_lt hstep)
    nlinarith
  · rw [h]
  · have : step * (k' + 1) ≤ step * k := by
      apply mul_le_mul_of_nonneg_left (by omega) (le_of_lt hstep)
    nlinarith

lemma add_min_shift (i T b : Int) : i + min T (b - i) = min (i + T) b := by
  rcases le_total T (b - i) with hle | hle
  · rw [min_eq_left hle, min_eq_left (by omega)]
  · rw [min_eq_right hle, min_eq_right (by omega)]
    omega

lemma mem_tile_windows_list {h w T : Int} (hT : 0 < T) {wdw : RasterWindow} :
    wdw ∈ tile_windows_list h w T ↔
      ∃ i, (0 ≤ i ∧ i < h ∧ T ∣ i) ∧ ∃ j, (0 ≤ j ∧ j < w ∧ T ∣ j) ∧
        wdw = ⟨j, i, min T (w - j), min T (h - i)⟩ := by
  unfold tile_windows_list
  simp only [List.mem_flatMap, List.mem_map, mem_pythonRange_pos hT]
  constructor
  · rintro ⟨i, hi, j, hj, rfl⟩
    exact ⟨i, hi, j, hj, rfl⟩
  · rintro ⟨i, hi, j, hj, rfl⟩
    exact ⟨i, hi, j, hj, rfl⟩

/-- All correctness properties of the tile generator claimed for positive
dimensions: the produced value, its row-major explicit form, in-bounds
windows, pairwise disjointness, and exact coverage of `[0,h) × [0,w)`. -/
def TilingCorrect (h w T : Int) : Prop :=
  get_tiles_windows h w T = .ok (tile_windows_list h w T) ∧
  tile_windows_list h w T =
    ((List.range (rangeLen 0 h T)).flatMap fun (ki : Nat) =>
      (List.range (rangeLen 0 w T)).map fun (kj : Nat) =>
        ⟨T * (kj : Int), T * (ki : Int),
          min T (w - T * (kj : Int)), min T (h - T * (ki : Int))⟩) ∧
  (∀ wdw ∈ tile_windows_list h w T,
    0 ≤ wdw.row_off ∧ 0 ≤ wdw.col_off ∧ 0 < wdw.height ∧ 0 < wdw.width ∧
    wdw.row_off + wdw.height ≤ h ∧ wdw.col_off + wdw.width ≤ w) ∧
  (∀ w1 ∈ tile_windows_list h w T, ∀ w2 ∈ tile_windows_list h w T, w1 ≠ w2 →
    ∀ r c, ¬(windowContains w1 r c ∧ windowContains w2 r c)) ∧
  (∀ r c, (0 ≤ r ∧ r < h ∧ 0 ≤ c ∧ c < w) ↔
    ∃ wdw ∈ tile_windows_list h w T, windowContains wdw r c)

/-- C1: for every raster height `H > 0`, width `W > 0` and tile edge `T > 0`,
`get_tiles_windows` returns (without error) the row-major list of windows
`{r, c, min(T, H-r), min(T, W-c)}` for `r` stepping by `T` from 0 to `H` and
`c` stepping by `T` from 0 to `W`; the windows are pairwise disjoint, stay
inside the raster bounds, and their union is exactly `[0,H) × [0,W)`. -/
theorem get_tiles_windows_tiling (h w T : Int)
    (hh : 0 < h) (hw : 0 < w) (hT : 0 < T) : TilingCorrect h w T := by
  refine ⟨?_, ?_, ?_, ?_, ?_⟩
  · unfold get_tiles_windows
    rw [if_neg (by omega)]
  · unfold tile_windows_list pythonRange
    simp only [List.flatMap_map, List.map_map, Function.comp_def, zero_add]
  · intro wdw hmem
    rw [mem_tile_windows_list hT] at hmem
    obtain ⟨i, ⟨hi0, hih, -⟩, j, ⟨hj0, hjw, -⟩, rfl⟩ := hmem
    have h1 : min T (h - i) ≤ h - i := min_le_right _ _
    have h2 : 0 < min T (h - i) := lt_min hT (by omega)
    have h3 : min T (w - j) ≤ w - j := min_le_right _ _
    have h4 : 0 < min T (w - j) := lt_min hT (by omega)
    refine ⟨hi0, hj0, h2, h4, ?_, ?_⟩ <;> dsimp only <;> omega
  · intro w1 hm1 w2 hm2 hne r c hcon
    rw [mem_tile_windows_list hT] at hm1 hm2
    obtain ⟨i, ⟨hi0, hih, hid⟩, j, ⟨hj0, hjw, hjd⟩, rfl⟩ := hm1
    obtain ⟨i', ⟨hi0', hih', hid'⟩, j', ⟨hj0', hjw', hjd'⟩, rfl⟩ := hm2
    obtain ⟨⟨a1, a2, a3, a4⟩, b1, b2, b3, b4⟩ := hcon
    simp only at a1 a2 a3 a4 b1 b2 b3 b4
    have ha2 : r < i + T := by
      have := min_le_left T (h - i); omega
    have hb2 : r < i' + T := by
      have := min_le_left T (h - i'); omega
    have ha4 : c < j + T := by
      have := min_le_left T (w - j); omega
    have hb4 : c < j' + T := by
      have := min_le_left T (w - j'); omega
    have hii : i = i' := step_block_unique hT hid hid' a1 ha2 b1 hb2
    have hjj : j = j' := step_block_unique hT hjd hjd' a3 ha4 b3 hb4
    subst hii
    subst hjj
    exact hne rfl
  · intro r c
    constructor
    · rintro ⟨hr0, hrh, hc0, hcw⟩
      refine ⟨⟨T * (c / T), T * (r / T),
        min T (w - T * (c / T)), min T (h - T * (r / T))⟩, ?_, ?_⟩
      · rw [mem_tile_windows_list hT]
        have hrle : T * (r / T) ≤ r := by
          rw [mul_comm]; exact Int.ediv_mul_le r (ne_of_gt hT)
        have hcle : T * (c / T) ≤ c := by
          rw [mul_comm]; exact Int.ediv_mul_le c (ne_of_gt hT)
        have hr0' : 0 ≤ T * (r / T) :=
          mul_nonneg hT.le (Int.ediv_nonneg hr0 hT.le)
        have hc0' : 0 ≤ T * (c / T) :=
          mul_nonneg hT.le (Int.ediv_nonneg hc0 hT.le)
        exact ⟨T * (r / T), ⟨hr0', by omega, ⟨r / T, rfl⟩⟩,
          T * (c / T), ⟨hc0', by omega, ⟨c / T, rfl⟩⟩, rfl⟩
      · have hrlt : r < T * (r / T) + T := by
          have h1 := Int.lt_ediv_add_one_mul_self r hT
          have h2 : (r / T + 1) * T = T * (r / T) + T := by ring
          omega
        have hclt : c < T * (c / T) + T := by
          have h1 := Int.lt_ediv_add_one_mul_self c hT
          have h2 : (c / T + 1) * T = T * (c / T) + T := by ring
          omega
        have hrle : T * (r / T) ≤ r := by
          rw [mul_comm]; exact Int.ediv_mul_le r (ne_of_gt hT)
        have hcle : T * (c / T) ≤ c := by
          rw [mul_comm]; exact Int.ediv_mul_le c (ne_of_gt hT)
        refine ⟨hrle, ?_, hcle, ?_⟩
        · simp only
          rw [add_min_shift]
          exact lt_min hrlt hrh
        · simp only
          rw [add_min_shift]
          exact lt_min hclt hcw
    · rintro ⟨wdw, hmem, hc1, hc2, hc3, hc4⟩
      rw [mem_tile_windows_list hT] at hmem
      obtain ⟨i, ⟨hi0, hih, -⟩, j, ⟨hj0, hjw, -⟩, rfl⟩ := hmem
      simp only at hc1 hc2 hc3 hc4
      have h1 : min T (h - i) ≤ h - i := min_le_right _ _
      have h3 : min T (w - j) ≤ w - j := min_le_right _ _
      exact ⟨by omega, by omega, by omega, by omega⟩

/-- Witness for C1 at `H = 5`, `W = 4`, `T = 3`. -/
theorem get_tiles_windows_tiling_witness :
    (0 : Int) < 5 ∧ (0 : Int) < 4 ∧ (0 : Int) < 3 ∧ TilingCorrect 5 4 3 :=
  ⟨by decide, by decide, by decide,
    get_tiles_windows_tiling 5 4 3 (by decide) (by decide) (by decide)⟩

/-- C7 counterexample: at `H = 0`, `W = 5`, `T = 4` the tile generator
returns an (empty) window list with no error at all — the source contains no
dimension validation, so it does not fail with `InvalidDimension`. -/
theorem get_tiles_windows_no_dimension_check :
    get_tiles_windows 0 5 4 = .ok [] ∧
    get_tiles_windows 0 5 4 ≠ .error .invalidDimension := by
  have hok : get_tiles_windows 0 5 4 = .ok [] := rfl
  refine ⟨hok, ?_⟩
  rw [hok]
  intro hc
  exact Except.noConfusion hc

/-- C7 amended: the tile generator performs no dimension validation.  For a
raster with `H ≥ 0`, `W ≥ 0`: a zero tile size raises Python's
`range() arg 3 must not be zero` `ValueError`, while `H = 0`, `W = 0` or a
negative tile size silently yield an empty window list. -/
theorem get_tiles_windows_degenerate (h w T : Int) (hh : 0 ≤ h) (hw : 0 ≤ w) :
    get_tiles_windows h w 0 = .error (.valueError "range() arg 3 must not be zero") ∧
    (T ≠ 0 → (h = 0 ∨ w = 0 ∨ T < 0) → get_tiles_windows h w T = .ok []) := by
  constructor
  · unfold get_tiles_windows
    rw [if_pos rfl]
  · intro hT0 hcase
    unfold get_tiles_windows
    rw [if_neg hT0]
    unfold tile_windows_list
    rcases lt_trichotomy T 0 with hT | hT | hT
    · rw [pythonRange_neg_empty hT hh]
      rfl
    · exact absurd hT hT0
    · rcases hcase with h0 | w0 | hneg
      · subst h0
        rw [pythonRange_pos_empty hT le_rfl]
        rfl
      · subst w0
        have hinner : pythonRange 0 0 T = [] := pythonRange_pos_empty hT le_rfl
        simp [hinner]
      · omega

/-- Witness for the amended C7 at `H = 3`, `W = 0`, `T = 5`. -/
theorem get_tiles_windows_degenerate_witness :
    (0 : Int) ≤ 3 ∧ (0 : Int) ≤ 0 ∧
    (get_tiles_windows 3 0 0 = .error (.valueError "range() arg 3 must not be zero") ∧
      ((5 : Int) ≠ 0 → ((3 : Int) = 0 ∨ (0 : Int) = 0 ∨ (5 : Int) < 0) →
        get_tiles_windows 3 0 5 = .ok [])) :=
  ⟨by decide, by decide, get_tiles_windows_degenerate 3 0 5 (by decide) (by decide)⟩

/-! ### Spectral indices and threshold classification

`spectral_indices.py` and `threshold_classification.py`: a pixel block is a
`(height, width)` grid of RGB samples; all numpy operations used are
element-wise, embedded over `List (List ·)` grids with exact rationals in
place of `float32`. -/

/-- One sample of a `PixelBlock`: channels 0/1/2 (red/green/blue) promoted to
floating point. -/
structure Pixel where
  r : ℚ
  g : ℚ
  b : ℚ
deriving DecidableEq

/-- Embeds `calculate_green_ratio` (`spectral_indices.py` line 35). -/
def calculate_green_ratio (red green : ℚ) : ℚ := green / (red + 1/1000)

/-- Embeds `calculate_green_blue_ratio` (`spectral_indices.py` line 49). -/
def calculate_green_blue_ratio (green blue : ℚ) : ℚ := green / (blue + 1/1000)

/-- Embeds `calculate_green_index` (`spectral_indices.py` line 64). -/
def calculate_green_index (red green : ℚ) : ℚ :=
  (green - red) / (green + red + 1/1000)

/-- The dictionary returned by `calculate_color_indices`. -/
structure ColorIndices where
  green_red_ratio : List (List ℚ)
  green_blue_ratio : List (List ℚ)
  green_index : List (List ℚ)

def grid_map (f : Pixel → ℚ) (block : List (List Pixel)) : List (List ℚ) :=
  block.map (List.map f)

/-- Embeds `calculate_color_indices` (`spectral_indices.py` lines 67–89): splits the
channels and computes the three index grids element-wise. -/
def calculate_color_indices (rgb_data : List (List Pixel)) : ColorIndices :=
  ⟨grid_map (fun p => calculate_green_ratio p.r p.g) rgb_data,
   grid_map (fun p => calculate_green_blue_ratio p.g p.b) rgb_data,
   grid_map (fun p => calculate_green_index p.r p.g) rgb_data⟩

/-- Element-wise `grid >= t` (numpy broadcast comparison). -/
def grid_ge (grid : List (List ℚ)) (t : ℚ) : List (List Bool) :=
  grid.map (List.map (fun x => decide (t ≤ x)))

/-- Element-wise `&` of two boolean grids. -/
def grid_and (a b : List (List Bool)) : List (List Bool) :=
  List.zipWith (List.zipWith and) a b

/-- Embeds `mask.astype(np.uint8) * 255`. -/
def grid_to_uint8 (m : List (List Bool)) : List (List ℕ) :=
  m.map (List.map (fun x => if x then 255 else 0))

/-- The mask expression shared by `threshold_classification` (lines 40–45)
and `combined_classification` (lines 107–111): three comparisons combined
with `&`, then scaled to 255/0. -/
def build_mask (indices : ColorIndices) (tgr tgb tgi : ℚ) : List (List ℕ) :=
  grid_to_uint8
    (grid_and
      (grid_and (grid_ge indices.green_red_ratio tgr)
        (grid_ge indices.green_blue_ratio tgb))
      (grid_ge indices.green_index tgi))

/-- Embeds `threshold_classification` (`threshold_classification.py` lines 15–47).
The single `green_ratio_threshold` parameter is used for both the G/R and
the G/B comparison, exactly as in the source.  (The `min_area` parameter of
the Python signature is unused by the function body and omitted.) -/
def threshold_classification (rgb_data : List (List Pixel))
    (green_ratio_threshold green_index_threshold : ℚ) : List (List ℕ) :=
  build_mask (calculate_color_indices rgb_data)
    green_ratio_threshold green_ratio_threshold green_index_threshold

/-- The per-pixel value of the combined mask: 255 when all three threshold
conditions hold, 0 otherwise. -/
def mask_pixel (tgr tgb tgi : ℚ) (p : Pixel) : ℕ :=
  if tgr ≤ calculate_green_ratio p.r p.g ∧
      tgb ≤ calculate_green_blue_ratio p.g p.b ∧
      tgi ≤ calculate_green_index p.r p.g
  then 255 else 0

lemma zipWith_map_same {α β γ δ : Type} (g : β → γ → δ) (f1 : α → β)
    (f2 : α → γ) (l : List α) :
    List.zipWith g (l.map f1) (l.map f2) = l.map (fun x => g (f1 x) (f2 x)) := by
  induction l with
  | nil => rfl
  | cons a tl ih => simp [ih]

/-- The element-wise composition of the grid operations collapses to a single
per-pixel map. -/
lemma build_mask_eq_map (rgb_data : List (List Pixel)) (tgr tgb tgi : ℚ) :
    build_mask (calculate_color_indices rgb_data) tgr tgb tgi =
      rgb_data.map (List.map (mask_pixel tgr tgb tgi)) := by
  unfold build_mask calculate_color_indices grid_ge grid_and grid_to_uint8 grid_map
  simp only [List.map_map, Function.comp_def, zipWith_map_same]
  refine List.map_congr_left ?_
  intro row _
  refine List.map_congr_left ?_
  intro p _
  unfold mask_pixel
  simp only [Bool.and_eq_true, decide_eq_true_eq]
  exact if_congr and_assoc rfl rfl

/-- C4: with the default thresholds (`t_gr = t_gb = 1.0`, `t_gi = 0.2`) the
fixed-threshold classifier marks pixel `(i, j)` as vegetation (mask value
255) iff `G/(R+0.001) ≥ 1 ∧ G/(B+0.001) ≥ 1 ∧ (G−R)/(G+R+0.001) ≥ 0.2`. -/
theorem threshold_classification_pixel_rule (rgb_data : List (List Pixel))
    (row : List Pixel) (p : Pixel) (i j : ℕ)
    (hi : rgb_data[i]? = some row) (hj : row[j]? = some p) :
    ∃ mrow, (threshold_classification rgb_data 1 (1/5))[i]? = some mrow ∧
      mrow[j]? = some (mask_pixel 1 1 (1/5) p) ∧
      (mrow[j]? = some 255 ↔
        (1 ≤ p.g / (p.r + 1/1000) ∧ 1 ≤ p.g / (p.b + 1/1000) ∧
          1/5 ≤ (p.g - p.r) / (p.g + p.r + 1/1000))) := by
  unfold threshold_classification
  rw [build_mask_eq_map]
  refine ⟨row.map (mask_pixel 1 1 (1/5)), ?_, ?_, ?_⟩
  · rw [List.getElem?_map, hi]
    rfl
  · rw [List.getElem?_map, hj]
    rfl
  · rw [List.getElem?_map, hj]
    show some (mask_pixel 1 1 (1/5) p) = some 255 ↔ _
    rw [Option.some_inj]
    unfold mask_pixel calculate_green_ratio calculate_green_blue_ratio calculate_green_index
    split
    · rename_i hcond
      exact ⟨fun _ => hcond, fun _ => rfl⟩
    · rename_i hcond
      exact ⟨fun h255 => absurd h255 (by norm_num), fun hc => absurd hc hcond⟩

/-- Witness for C4 at the single green pixel `(R,G,B) = (50,200,50)`. -/
theorem threshold_classification_pixel_rule_witness :
    (([[⟨50, 200, 50⟩]] : List (List Pixel))[0]? = some [⟨50, 200, 50⟩]) ∧
    (([⟨50, 200, 50⟩] : List Pixel)[0]? = some ⟨50, 200, 50⟩) ∧
    (∃ mrow, (threshold_classification [[⟨50, 200, 50⟩]] 1 (1/5))[0]? = some mrow ∧
      mrow[0]? = some (mask_pixel 1 1 (1/5) ⟨50, 200, 50⟩) ∧
      (mrow[0]? = some 255 ↔
        (1 ≤ (200 : ℚ) / (50 + 1/1000) ∧ 1 ≤ (200 : ℚ) / (50 + 1/1000) ∧
          1/5 ≤ ((200 : ℚ) - 50) / (200 + 50 + 1/1000)))) :=
  ⟨rfl, rfl,
    threshold_classification_pixel_rule [[⟨50, 200, 50⟩]] [⟨50, 200, 50⟩]
      ⟨50, 200, 50⟩ 0 0 rfl rfl⟩

/-! ### Combined classification (externally supplied threshold dictionary) -/

/-- The threshold dictionary consumed by `combined_classification`; each of
the three names the function looks up may be present or absent. -/
structure ThresholdDict where
  green_red_ratio : Option ℚ
  green_blue_ratio : Option ℚ
  green_index : Option ℚ
deriving DecidableEq

/-- Python `dict[key]`: raises `KeyError` when the name is absent. -/
def dict_lookup (v : Option ℚ) (key : String) : Except PyErr ℚ :=
  match v with
  | some x => .ok x
  | none => .error (.keyError key)

/-- Embeds `combined_classification` (`threshold_classification.py` lines 84–113):
if `thresholds is None` a default dictionary with all three names is built;
otherwise the three names are looked up in the supplied dictionary (in the
evaluation order of line 107–109) and the same mask as
`threshold_classification` is computed from the looked-up values. -/
def combined_classification (rgb_data : List (List Pixel))
    (thresholds : Option ThresholdDict) : Except PyErr (List (List ℕ)) :=
  match thresholds with
  | none => .ok (build_mask (calculate_color_indices rgb_data) 1 1 (1/5))
  | some t =>
    match dict_lookup t.green_red_ratio "green_red_ratio" with
    | .error e => .error e
    | .ok tgr =>
      match dict_lookup t.green_blue_ratio "green_blue_ratio" with
      | .error e => .error e
      | .ok tgb =>
        match dict_lookup t.green_index "green_index" with
        | .error e => .error e
        | .ok tgi => .ok (build_mask (calculate_color_indices rgb_data) tgr tgb tgi)

/-- C8 counterexample: a supplied mapping that omits `green_red_ratio` makes
the combined classifier raise `KeyError` — it does not fall back to the
default for the missing name (the fixed classifier on the same block returns
a mask, shown for contrast). -/
theorem combined_classification_missing_key_raises :
    combined_classification [[⟨50, 200, 50⟩]]
        (some ⟨none, some 1, some (1/5)⟩) = .error (.keyError "green_red_ratio") ∧
    threshold_classification [[⟨50, 200, 50⟩]] 1 (1/5) = [[255]] := by
  constructor
  · rfl
  · unfold threshold_classification
    rw [build_mask_eq_map]
    norm_num [mask_pixel, calculate_green_ratio, calculate_green_blue_ratio,
      calculate_green_index]

/-- C8 amended: when the mapping argument is omitted (`None`) the combined
classifier uses the fixed-threshold defaults for all three names; when a
mapping is supplied it applies the same three-condition test with the
supplied per-name values, but all three names must be present — a mapping
missing a name raises `KeyError` for that name instead of falling back. -/
theorem combined_classification_behaviour (rgb_data : List (List Pixel))
    (tgr tgb tgi : ℚ) :
    combined_classification rgb_data none =
      .ok (threshold_classification rgb_data 1 (1/5)) ∧
    combined_classification rgb_data (some ⟨some tgr, some tgb, some tgi⟩) =
      .ok (rgb_data.map (List.map (mask_pixel tgr tgb tgi))) ∧
    (∀ d : ThresholdDict,
      (d.green_red_ratio = none →
        combined_classification rgb_data (some d) =
          .error (.keyError "green_red_ratio")) ∧
      (∀ x, d.green_red_ratio = some x → d.green_blue_ratio = none →
        combined_classification rgb_data (some d) =
          .error (.keyError "green_blue_ratio")) ∧
      (∀ x y, d.green_red_ratio = some x → d.green_blue_ratio = some y →
        d.green_index = none →
        combined_classification rgb_data (some d) =
          .error (.keyError "green_index"))) := by
  refine ⟨rfl, ?_, ?_⟩
  · show Except.ok _ = _
    rw [build_mask_eq_map]
  · intro d
    refine ⟨?_, ?_, ?_⟩
    · intro h1
      simp [combined_classification, dict_lookup, h1]
    · intro x h1 h2
      simp [combined_classification, dict_lookup, h1, h2]
    · intro x y h1 h2 h3
      simp [combined_classification, dict_lookup, h1, h2, h3]

/-- Witness for the amended C8: the `None` case evaluated on a one-pixel
block. -/
theorem combined_classification_behaviour_witness :
    combined_classification [[⟨0, 0, 0⟩]] none =
      .ok (threshold_classification [[⟨0, 0, 0⟩]] 1 (1/5)) :=
  (combined_classification_behaviour [[⟨0, 0, 0⟩]] 1 1 1).1

/-! ### Object extraction and shape filtering

`object_extraction.py`.  Connected-component labelling and the measurement
of `area` / `perimeter` / `bbox` / `centroid` are performed by skimage
(`label` / `regionprops`, an external collaborator); the embedded functions
take the resulting list of region descriptors as input and contain the
repository's own filtering logic.  `regionprops` areas and bounding boxes
are integers, perimeters and centroids floats (here exact rationals). -/

/-- The coordinate-space tag of the data model: descriptors made by
`regionprops` inside a task are tile-local (`Local`); the serializable
dictionaries produced by the offset loop of `process_orthophoto_chunk` are
raster-global (`Global`). -/
inductive CoordSpace where
  | Local
  | Global
deriving DecidableEq

/-- A `regionprops` bounding box `(min_row, min_col, max_row, max_col)`. -/
structure BBox where
  min_row : ℤ
  min_col : ℤ
  max_row : ℤ
  max_col : ℤ
deriving DecidableEq

/-- An object descriptor: the measured properties of one labelled connected
component, plus the coordinate-space tag it currently carries. -/
structure ObjDescriptor where
  area : ℤ
  perimeter : ℚ
  bbox : BBox
  centroid : ℚ × ℚ
  space : CoordSpace
deriving DecidableEq

/-- Embeds `extract_objects` (`object_extraction.py` lines 17–45): keeps exactly the
labelled regions whose area lies in `[min_area, max_area]` (the labelling
itself is skimage's; `regions` is its output). -/
def extract_objects (regions : List ObjDescriptor)
    (min_area max_area : ℤ) : List ObjDescriptor :=
  regions.filter fun region =>
    decide (min_area ≤ region.area) && decide (region.area ≤ max_area)

/-- The exact IEEE-754 double value of `np.pi`. -/
def piQ : ℚ := 884279719003555 / 281474976710656

/-- Embeds `filter_by_shape` (`object_extraction.py` lines 47–69): keep a region
with positive perimeter iff `4·π·area / perimeter² ≥ min_circularity`; a
region with non-positive perimeter is kept unconditionally. -/
def filter_by_shape (regions : List ObjDescriptor)
    (min_circularity : ℚ) : List ObjDescriptor :=
  regions.filter fun region =>
    if 0 < region.perimeter then
      decide (min_circularity ≤ 4 * piQ * (region.area : ℚ) / region.perimeter ^ 2)
    else true

/-- C5: every object returned by `extract_objects` has
`min_area ≤ area ≤ max_area`, and a labelled component with area outside the
range never appears in the output. -/
theorem extract_objects_area_filter (regions : List ObjDescriptor)
    (min_area max_area : ℤ) (hle : min_area ≤ max_area) :
    (∀ region ∈ extract_objects regions min_area max_area,
      min_area ≤ region.area ∧ region.area ≤ max_area) ∧
    (∀ region ∈ regions, (region.area < min_area ∨ max_area < region.area) →
      region ∉ extract_objects regions min_area max_area) := by
  constructor
  · intro region hmem
    rw [extract_objects, List.mem_filter] at hmem
    obtain ⟨-, hp⟩ := hmem
    rw [Bool.and_eq_true, decide_eq_true_eq, decide_eq_true_eq] at hp
    exact hp
  · intro region _ hout hmem
    rw [extract_objects, List.mem_filter] at hmem
    obtain ⟨-, hp⟩ := hmem
    rw [Bool.and_eq_true, decide_eq_true_eq, decide_eq_true_eq] at hp
    omega

/-- Witness for C5: bounds `10 ≤ 100` on two concrete regions with areas 5
and 50. -/
theorem extract_objects_area_filter_witness :
    (10 : ℤ) ≤ 100 ∧
    ((∀ region ∈ extract_objects
        [⟨5, 1, ⟨0, 0, 1, 1⟩, (0, 0), .Local⟩,
         ⟨50, 1, ⟨0, 0, 5, 5⟩, (2, 2), .Local⟩] 10 100,
      (10 : ℤ) ≤ region.area ∧ region.area ≤ 100) ∧
     (∀ region ∈ [⟨5, 1, ⟨0, 0, 1, 1⟩, (0, 0), .Local⟩,
         (⟨50, 1, ⟨0, 0, 5, 5⟩, (2, 2), .Local⟩ : ObjDescriptor)],
      (region.area < 10 ∨ 100 < region.area) →
      region ∉ extract_objects
        [⟨5, 1, ⟨0, 0, 1, 1⟩, (0, 0), .Local⟩,
         ⟨50, 1, ⟨0, 0, 5, 5⟩, (2, 2), .Local⟩] 10 100)) :=
  ⟨by decide,
    extract_objects_area_filter
      [⟨5, 1, ⟨0, 0, 1, 1⟩, (0, 0), .Local⟩,
       ⟨50, 1, ⟨0, 0, 5, 5⟩, (2, 2), .Local⟩] 10 100 (by decide)⟩

/-- C6: the shape filter retains a listed component with `perimeter = 0`
unconditionally, and retains a component with positive perimeter iff
`4·π·area / perimeter² ≥ min_circularity`. -/
theorem filter_by_shape_rule (regions : List ObjDescriptor)
    (min_circularity : ℚ) (region : ObjDescriptor) (hmem : region ∈ regions) :
    (region.perimeter = 0 →
      region ∈ filter_by_shape regions min_circularity) ∧
    (0 < region.perimeter →
      (region ∈ filter_by_shape regions min_circularity ↔
        min_circularity ≤ 4 * piQ * (region.area : ℚ) / region.perimeter ^ 2)) := by
  constructor
  · intro h0
    rw [filter_by_shape, List.mem_filter]
    refine ⟨hmem, ?_⟩
    rw [if_neg (by rw [h0]; exact lt_irrefl 0)]
  · intro hpos
    rw [filter_by_shape, List.mem_filter]
    constructor
    · rintro ⟨-, hp⟩
      rw [if_pos hpos, decide_eq_true_eq] at hp
      exact hp
    · intro hc
      refine ⟨hmem, ?_⟩
      rw [if_pos hpos, decide_eq_true_eq]
      exact hc

/-- Witness for C6: a one-pixel component with degenerate (zero) perimeter in
a singleton region list, with the filter set to `min_circularity = 1/2`. -/
theorem filter_by_shape_rule_witness :
    ((⟨1, 0, ⟨0, 0, 1, 1⟩, (0, 0), .Local⟩ : ObjDescriptor) ∈
      [(⟨1, 0, ⟨0, 0, 1, 1⟩, (0, 0), .Local⟩ : ObjDescriptor)]) ∧
    (((⟨1, 0, ⟨0, 0, 1, 1⟩, (0, 0), .Local⟩ : ObjDescriptor).perimeter = 0 →
      (⟨1, 0, ⟨0, 0, 1, 1⟩, (0, 0), .Local⟩ : ObjDescriptor) ∈
        filter_by_shape [⟨1, 0, ⟨0, 0, 1, 1⟩, (0, 0), .Local⟩] (1/2)) ∧
     (0 < (⟨1, 0, ⟨0, 0, 1, 1⟩, (0, 0), .Local⟩ : ObjDescriptor).perimeter →
      ((⟨1, 0, ⟨0, 0, 1, 1⟩, (0, 0), .Local⟩ : ObjDescriptor) ∈
          filter_by_shape [⟨1, 0, ⟨0, 0, 1, 1⟩, (0, 0), .Local⟩] (1/2) ↔
        1/2 ≤ 4 * piQ *
            ((⟨1, 0, ⟨0, 0, 1, 1⟩, (0, 0), .Local⟩ : ObjDescriptor).area : ℚ) /
            (⟨1, 0, ⟨0, 0, 1, 1⟩, (0, 0), .Local⟩ : ObjDescriptor).perimeter ^ 2))) :=
  ⟨by decide,
    filter_by_shape_rule [⟨1, 0, ⟨0, 0, 1, 1⟩, (0, 0), .Local⟩] (1/2)
      ⟨1, 0, ⟨0, 0, 1, 1⟩, (0, 0), .Local⟩ (by decide)⟩

/-! ### Per-chunk processing, coordinate translation and aggregation

`multithread_processing.py` lines 82–189 and 191–264.  The raster read,
preprocessing and vegetation extraction performed inside the `try:` block
touch the filesystem and external libraries; their combined outcome for one
task — either the list of locally-measured descriptors or the message of the
exception raised anywhere in the block — enters the embedding as the
explicit `pipeline` argument.  The window argument is the task's effective
window (for the polygon path, the one computed from the polygon's bounds on
lines 116–122, which needs the raster transform). -/

/-- A `rasterio`/`shapely` polygon geometry, carried through the result record
untouched; only its bounding extent is ever consumed. -/
structure Polygon where
  bounds : ℚ × ℚ × ℚ × ℚ
deriving DecidableEq

/-- The result dictionary of one task (`TileResult` of the data model). -/
structure ChunkResult where
  polygon : Option Polygon
  count : ℕ
  objects : List ObjDescriptor
  success : Bool
  error : Option String
deriving DecidableEq

/-- The body of the translation loop (`multithread_processing.py` lines
143–151): shift the bounding box and centroid by the window offset, leaving
the measured values otherwise unchanged; the resulting serializable
dictionary is in raster-global coordinates. -/
def translate_region (reg : ObjDescriptor) (offset_y offset_x : ℤ) : ObjDescriptor :=
  ⟨reg.area, reg.perimeter,
    ⟨reg.bbox.min_row + offset_y, reg.bbox.min_col + offset_x,
      reg.bbox.max_row + offset_y, reg.bbox.max_col + offset_x⟩,
    (reg.centroid.1 + (offset_y : ℚ), reg.centroid.2 + (offset_x : ℚ)),
    .Global⟩

/-- Tests whether `pat` occurs at the start of `s`. -/
def starts_with (pat s : List Char) : Bool :=
  match pat, s with
  | [], _ => true
  | _ :: _, [] => false
  | p :: ps, c :: cs => p == c && starts_with ps cs

/-- Tests whether `pat` occurs contiguously in `s` (Python's `in` on strings). -/
def contains_chars (pat : List Char) : List Char → Bool
  | [] => starts_with pat []
  | c :: cs => starts_with pat (c :: cs) || contains_chars pat cs

/-- The substring test of `multithread_processing.py` line 165. -/
def isCodecError (msg : String) : Bool :=
  contains_chars "codec can't decode".data msg.data ||
  contains_chars "invalid continuation byte".data msg.data

/-- The note prepended to a recorded encoding error (line 179). -/
def encodingNote : String := "Проблема с кодировкой пути: "

/-- The error string stored in a failed result (lines 162–189): an encoding
error on an existing path is decorated with `encodingNote`, every other
exception message is recorded verbatim. -/
def recorded_error (msg : String) (path_exists : Bool) : String :=
  if isCodecError msg && path_exists then encodingNote ++ msg else msg

/-- Embeds `process_orthophoto_chunk` (`multithread_processing.py` lines 82–189):
on pipeline success, translate every descriptor by the window offset
(`col_off`/`row_off`, or 0 with no window) and return a successful record
whose `count` is the length of the translated list; on any exception, return
a failed record with zero count, no objects and the recorded message. -/
def process_orthophoto_chunk (polygon_geom : Option Polygon)
    (window : Option RasterWindow) (path_exists : Bool)
    (pipeline : Except String (List ObjDescriptor)) : ChunkResult :=
  match pipeline with
  | .ok vegetation_objects =>
    let offset_x : ℤ := match window with | some wdw => wdw.col_off | none => 0
    let offset_y : ℤ := match window with | some wdw => wdw.row_off | none => 0
    let serializable_objects :=
      vegetation_objects.map fun reg => translate_region reg offset_y offset_x
    ⟨polygon_geom, serializable_objects.length, serializable_objects, true, none⟩
  | .error e => ⟨polygon_geom, 0, [], false, some (recorded_error e path_exists)⟩

/-- C3: translating a Local descriptor by window offset `(dr, dc)` shifts
its bounding box to `(minRow+dr, minCol+dc, maxRow+dr, maxCol+dc)` and its
centroid to `(row+dr, col+dc)` exactly, keeps the remaining measurements,
and rewrites the coordinate-space tag to `Global`. -/
theorem translate_region_exact (reg : ObjDescriptor) (dr dc : ℤ)
    (hloc : reg.space = .Local) :
    (translate_region reg dr dc).bbox =
      ⟨reg.bbox.min_row + dr, reg.bbox.min_col + dc,
        reg.bbox.max_row + dr, reg.bbox.max_col + dc⟩ ∧
    (translate_region reg dr dc).centroid =
      (reg.centroid.1 + (dr : ℚ), reg.centroid.2 + (dc : ℚ)) ∧
    (translate_region reg dr dc).space = .Global ∧
    (translate_region reg dr dc).area = reg.area ∧
    (translate_region reg dr dc).perimeter = reg.perimeter :=
  ⟨rfl, rfl, rfl, rfl, rfl⟩

/-- Witness for C3: a concrete Local descriptor shifted by `(10, 20)`. -/
theorem translate_region_exact_witness :
    (⟨3, 2, ⟨1, 2, 3, 4⟩, (5/2, 7/2), .Local⟩ : ObjDescriptor).space = .Local ∧
    ((translate_region ⟨3, 2, ⟨1, 2, 3, 4⟩, (5/2, 7/2), .Local⟩ 10 20).bbox =
        ⟨1 + 10, 2 + 20, 3 + 10, 4 + 20⟩ ∧
      (translate_region ⟨3, 2, ⟨1, 2, 3, 4⟩, (5/2, 7/2), .Local⟩ 10 20).centroid =
        (5/2 + (10 : ℚ), 7/2 + (20 : ℚ)) ∧
      (translate_region ⟨3, 2, ⟨1, 2, 3, 4⟩, (5/2, 7/2), .Local⟩ 10 20).space = .Global ∧
      (translate_region ⟨3, 2, ⟨1, 2, 3, 4⟩, (5/2, 7/2), .Local⟩ 10 20).area = 3 ∧
      (translate_region ⟨3, 2, ⟨1, 2, 3, 4⟩, (5/2, 7/2), .Local⟩ 10 20).perimeter = 2) :=
  ⟨rfl, translate_region_exact ⟨3, 2, ⟨1, 2, 3, 4⟩, (5/2, 7/2), .Local⟩ 10 20 rfl⟩

/-- C10: on every branch of `process_orthophoto_chunk` — success or caught
exception — the returned record satisfies `count = objects.length`, and a
failed record always carries `count = 0` and an empty object list. -/
theorem process_orthophoto_chunk_count_invariant (polygon_geom : Option Polygon)
    (window : Option RasterWindow) (path_exists : Bool)
    (pipeline : Except String (List ObjDescriptor)) :
    (process_orthophoto_chunk polygon_geom window path_exists pipeline).count =
      (process_orthophoto_chunk polygon_geom window path_exists pipeline).objects.length ∧
    ((process_orthophoto_chunk polygon_geom window path_exists pipeline).success = false →
      (process_orthophoto_chunk polygon_geom window path_exists pipeline).count = 0 ∧
      (process_orthophoto_chunk polygon_geom window path_exists pipeline).objects = []) := by
  cases pipeline with
  | ok objs =>
    refine ⟨rfl, ?_⟩
    intro hfail
    exact absurd hfail (by simp [process_orthophoto_chunk])
  | error e => exact ⟨rfl, fun _ => ⟨rfl, rfl⟩⟩

/-- Witness for C10 on a concretely failing pipeline. -/
theorem process_orthophoto_chunk_count_invariant_witness :
    (process_orthophoto_chunk none none false (.error "boom")).count =
      (process_orthophoto_chunk none none false (.error "boom")).objects.length ∧
    ((process_orthophoto_chunk none none false (.error "boom")).success = false →
      (process_orthophoto_chunk none none false (.error "boom")).count = 0 ∧
      (process_orthophoto_chunk none none false (.error "boom")).objects = []) :=
  process_orthophoto_chunk_count_invariant none none false (.error "boom")

/-! ### The parallel scheduler and result aggregation -/

/-- Everything outside the repository that determines one task's execution:
its polygon, its effective window, whether the raster path exists, and the
outcome of the I/O-and-extraction pipeline run for it. -/
structure TaskEnv where
  polygon : Polygon
  window : Option RasterWindow
  path_exists : Bool
  pipeline : Except String (List ObjDescriptor)

/-- One dask task of `process_orthophoto_parallel` (lines 229–236): the
chunk processor applied to the task's own environment. -/
def run_chunk (t : TaskEnv) : ChunkResult :=
  process_orthophoto_chunk (some t.polygon) t.window t.path_exists t.pipeline

/-- Embeds `sum(result['count'] for result in results if result['success'])`
(line 242). -/
def sum_successful_counts (results : List ChunkResult) : ℕ :=
  ((results.filter fun r => r.success).map fun r => r.count).sum

/-- The run-level result dictionary of `process_orthophoto_parallel`. -/
structure RunSummary where
  total_polygons : ℕ
  total_objects : ℕ
  results : List ChunkResult
  success : Bool
  error : Option String
deriving DecidableEq

/-- Embeds `process_orthophoto_parallel` (lines 191–264): with the polygons loaded,
every polygon's task is computed independently (`dask.compute` returns the
per-task records in task order) and folded into a successful run summary;
a failure of the shapefile loading itself is the run-level error branch. -/
def process_orthophoto_parallel (loaded : Except String (List TaskEnv)) : RunSummary :=
  match loaded with
  | .ok tasks =>
    let results := tasks.map run_chunk
    ⟨tasks.length, sum_successful_counts results, results, true, none⟩
  | .error e => ⟨0, 0, [], false, some e⟩

lemma sum_successful_counts_eraseIdx (results : List ChunkResult) (i : ℕ)
    (res : ChunkResult) (hget : results[i]? = some res)
    (hfail : res.success = false) :
    sum_successful_counts results = sum_successful_counts (results.eraseIdx i) := by
  induction results generalizing i with
  | nil => simp at hget
  | cons a tl ih =>
    cases i with
    | zero =>
      rw [List.getElem?_cons_zero, Option.some_inj] at hget
      subst hget
      simp [sum_successful_counts, List.filter_cons, hfail]
    | succ n =>
      rw [List.getElem?_cons_succ] at hget
      have hih := ih n hget
      unfold sum_successful_counts at hih ⊢
      rw [List.eraseIdx_cons_succ]
      by_cases ha : a.success = true
      · rw [List.filter_cons_of_pos ha, List.filter_cons_of_pos ha,
          List.map_cons, List.map_cons, List.sum_cons, List.sum_cons, hih]
      · rw [List.filter_cons_of_neg ha, List.filter_cons_of_neg ha]
        exact hih

/-- C2: if task `i`'s pipeline raises, the error is caught at the task
boundary: task `i`'s record is failed with the message recorded (verbatim,
or with the encoding note prepended) and carries no objects; every sibling
task's record is exactly its own chunk result, unaffected; the run stays
successful and `total_objects` is the successful-count sum over the
remaining tasks. -/
theorem process_orthophoto_parallel_failure_isolation (tasks : List TaskEnv)
    (i : ℕ) (t : TaskEnv) (msg : String)
    (ht : tasks[i]? = some t) (he : t.pipeline = .error msg) :
    (process_orthophoto_parallel (.ok tasks)).success = true ∧
    (∃ res, (process_orthophoto_parallel (.ok tasks)).results[i]? = some res ∧
      res.success = false ∧
      (res.error = some msg ∨ res.error = some (encodingNote ++ msg)) ∧
      res.count = 0 ∧ res.objects = []) ∧
    (∀ j, j ≠ i → (process_orthophoto_parallel (.ok tasks)).results[j]? =
      (tasks[j]?).map run_chunk) ∧
    (process_orthophoto_parallel (.ok tasks)).total_objects =
      sum_successful_counts
        ((process_orthophoto_parallel (.ok tasks)).results.eraseIdx i) := by
  have hres : (process_orthophoto_parallel (.ok tasks)).results = tasks.map run_chunk := rfl
  have hchunk : run_chunk t =
      ⟨some t.polygon, 0, [], false, some (recorded_error msg t.path_exists)⟩ := by
    rw [run_chunk, he]
    rfl
  refine ⟨rfl, ?_, ?_, ?_⟩
  · refine ⟨run_chunk t, ?_, ?_, ?_, ?_, ?_⟩
    · rw [hres, List.getElem?_map, ht]
      rfl
    · rw [hchunk]
    · rw [hchunk]
      unfold recorded_error
      by_cases hc : (isCodecError msg && t.path_exists) = true
      · rw [if_pos hc]
        right
        rfl
      · rw [if_neg hc]
        left
        rfl
    · rw [hchunk]
    · rw [hchunk]
  · intro j _
    rw [hres, List.getElem?_map]
  · have hgi : (process_orthophoto_parallel (.ok tasks)).results[i]? =
        some (run_chunk t) := by
      rw [hres, List.getElem?_map, ht]
      rfl
    have hfail : (run_chunk t).success = false := by rw [hchunk]
    exact sum_successful_counts_eraseIdx _ i (run_chunk t) hgi hfail

/-- Witness for C2: two concrete tasks, the second of which fails. -/
theorem process_orthophoto_parallel_failure_isolation_witness :
    (([⟨⟨(0, 0, 1, 1)⟩, none, false, .ok []⟩,
        ⟨⟨(0, 0, 1, 1)⟩, none, false, .error "boom"⟩] : List TaskEnv)[1]? =
      some ⟨⟨(0, 0, 1, 1)⟩, none, false, .error "boom"⟩) ∧
    ((⟨⟨(0, 0, 1, 1)⟩, none, false, .error "boom"⟩ : TaskEnv).pipeline =
      .error "boom") ∧
    ((process_orthophoto_parallel (.ok
        [⟨⟨(0, 0, 1, 1)⟩, none, false, .ok []⟩,
         ⟨⟨(0, 0, 1, 1)⟩, none, false, .error "boom"⟩])).success = true ∧
      (∃ res, (process_orthophoto_parallel (.ok
          [⟨⟨(0, 0, 1, 1)⟩, none, false, .ok []⟩,
           ⟨⟨(0, 0, 1, 1)⟩, none, false, .error "boom"⟩])).results[1]? = some res ∧
        res.success = false ∧
        (res.error = some "boom" ∨ res.error = some (encodingNote ++ "boom")) ∧
        res.count = 0 ∧ res.objects = []) ∧
      (∀ j, j ≠ 1 → (process_orthophoto_parallel (.ok
          [⟨⟨(0, 0, 1, 1)⟩, none, false, .ok []⟩,
           ⟨⟨(0, 0, 1, 1)⟩, none, false, .error "boom"⟩])).results[j]? =
        (([⟨⟨(0, 0, 1, 1)⟩, none, false, .ok []⟩,
           ⟨⟨(0, 0, 1, 1)⟩, none, false, .error "boom"⟩] :
            List TaskEnv)[j]?).map run_chunk) ∧
      (process_orthophoto_parallel (.ok
          [⟨⟨(0, 0, 1, 1)⟩, none, false, .ok []⟩,
           ⟨⟨(0, 0, 1, 1)⟩, none, false, .error "boom"⟩])).total_objects =
        sum_successful_counts
          ((process_orthophoto_parallel (.ok
            [⟨⟨(0, 0, 1, 1)⟩, none, false, .ok []⟩,
             ⟨⟨(0, 0, 1, 1)⟩, none, false, .error "boom"⟩])).results.eraseIdx 1)) :=
  ⟨rfl, rfl,
    process_orthophoto_parallel_failure_isolation
      [⟨⟨(0, 0, 1, 1)⟩, none, false, .ok []⟩,
       ⟨⟨(0, 0, 1, 1)⟩, none, false, .error "boom"⟩] 1
      ⟨⟨(0, 0, 1, 1)⟩, none, false, .error "boom"⟩ "boom" rfl rfl⟩

/-- C9: the aggregation of per-task results is order-independent — for any
permutation of the arrival order of the identity-tagged results, the
successful-count sum (`total_objects`) and the tagged result collection are
identical. -/
theorem aggregation_order_independent (l1 l2 : List (ℕ × ChunkResult))
    (hperm : l1.Perm l2) :
    sum_successful_counts (l1.map Prod.snd) =
      sum_successful_counts (l2.map Prod.snd) ∧
    Multiset.ofList l1 = Multiset.ofList l2 := by
  constructor
  · unfold sum_successful_counts
    exact List.Perm.sum_eq (((hperm.map Prod.snd).filter _).map _)
  · exact Multiset.coe_eq_coe.mpr hperm

/-- Witness for C9: two tagged results arriving in swapped order. -/
theorem aggregation_order_independent_witness :
    ([((0 : ℕ), (⟨none, 2, [], true, none⟩ : ChunkResult)),
      (1, ⟨none, 3, [], true, none⟩)].Perm
     [(1, ⟨none, 3, [], true, none⟩), (0, ⟨none, 2, [], true, none⟩)]) ∧
    (sum_successful_counts
        ([((0 : ℕ), (⟨none, 2, [], true, none⟩ : ChunkResult)),
          (1, ⟨none, 3, [], true, none⟩)].map Prod.snd) =
      sum_successful_counts
        ([(1, ⟨none, 3, [], true, none⟩),
          ((0 : ℕ), (⟨none, 2, [], true, none⟩ : ChunkResult))].map Prod.snd) ∧
     Multiset.ofList
        [((0 : ℕ), (⟨none, 2, [], true, none⟩ : ChunkResult)),
         (1, ⟨none, 3, [], true, none⟩)] =
      Multiset.ofList
        [(1, ⟨none, 3, [], true, none⟩),
         ((0 : ℕ), (⟨none, 2, [], true, none⟩ : ChunkResult))]) :=
  ⟨List.Perm.swap _ _ _,
    aggregation_order_independent _ _ (List.Perm.swap _ _ _)⟩

end GreenVeg
